import Mathlib

/-!
Shallow embedding of the activity-classification and metrics-derivation core
of the options-dashboard repository (src/app.py), together with theorems
settling the specification claims about it.

Conventions of the embedding:
* pandas numeric cells that may be NA are `Option` values (`none` = NA/NaN);
* contract volumes and open interest are naturals, ratios are rationals;
* `classify_activity`, `add_relative_volume` (as `relativeVolume`),
  `find_unusual` and the watchlist loop body are translated from
  src/app.py; the global threshold variables UNUSUAL_MIN / HIGH_MIN /
  EXTREME_MIN / MIN_VOLUME become explicit parameters.
-/

namespace OptionsDashboard

/-- Activity tier produced by `classify_activity` (src/app.py:169-178). -/
inductive Tier where
  | Unknown
  | Normal
  | Unusual
  | High
  | Extreme
deriving DecidableEq, Repr

/-- The three sidebar thresholds UNUSUAL_MIN, HIGH_MIN, EXTREME_MIN
(src/app.py:145-147), passed explicitly instead of read as globals. -/
structure Thresholds where
  unusualMin : ℚ
  highMin : ℚ
  extremeMin : ℚ
deriving DecidableEq, Repr

/-- src/app.py:169-178 `classify_activity(ratio)`: `pd.isna(ratio)` is the
`none` case; then the three `>=` tests in source order. -/
def classify_activity (t : Thresholds) (r : Option ℚ) : Tier :=
  match r with
  | none => Tier.Unknown
  | some v =>
    if t.extremeMin ≤ v then Tier.Extreme
    else if t.highMin ≤ v then Tier.High
    else if t.unusualMin ≤ v then Tier.Unusual
    else Tier.Normal

/-- One raw option-chain row as consumed by `find_unusual`
(columns strike / volume / openInterest of the yfinance frame);
`none` models a missing (NaN) cell. -/
structure RawRow where
  strike : ℚ
  volume : Option ℕ
  openInterest : Option ℕ
deriving DecidableEq, Repr

/-- src/app.py:198 `df["volume"].fillna(0).astype(int)`. -/
def fillVolume (r : RawRow) : ℕ :=
  r.volume.getD 0

/-- src/app.py:199 `df["openInterest"].replace(0, pd.NA)`: a missing cell
stays missing and an exact 0 becomes missing. -/
def oiClean (r : RawRow) : Option ℕ :=
  match r.openInterest with
  | none => none
  | some n => if n = 0 then none else some n

/-- src/app.py:201 `df["volume"] / df["openInterest"]` after the two
column fixups: NA denominator propagates to NA. -/
def volOverOI (r : RawRow) : Option ℚ :=
  match oiClean r with
  | none => none
  | some oi => some ((fillVolume r : ℚ) / (oi : ℚ))

/-- Insert into a sorted list of naturals (ascending). -/
def insertSorted (x : ℕ) : List ℕ → List ℕ
  | [] => [x]
  | y :: ys => if x ≤ y then x :: y :: ys else y :: insertSorted x ys

/-- Insertion sort, ascending. -/
def sortVols : List ℕ → List ℕ
  | [] => []
  | x :: xs => insertSorted x (sortVols xs)

/-- pandas `Series.median` on the (already `fillna(0)`-treated) volume
column: NaN (`none`) on an empty series, middle element on odd length,
mean of the two middle elements on even length. -/
def medianVolume (vols : List ℕ) : Option ℚ :=
  let s := sortVols vols
  let n := s.length
  if n = 0 then none
  else if n % 2 = 1 then some ((s.getD (n / 2) 0 : ℕ) : ℚ)
  else some ((((s.getD (n / 2 - 1) 0 : ℕ) : ℚ) + ((s.getD (n / 2) 0 : ℕ) : ℚ)) / 2)

/-- src/app.py:180-185 `add_relative_volume(df)` for one row of `df`:
`df["volume"] / median_vol if median_vol and median_vol > 0 else pd.NA`,
`chain` being the whole frame the median is taken over (this is the side
frame `find_unusual` was called with, after the volume fillna). -/
def relativeVolume (chain : List RawRow) (r : RawRow) : Option ℚ :=
  match medianVolume (chain.map fillVolume) with
  | none => none
  | some m => if 0 < m then some ((fillVolume r : ℚ) / m) else none

/-- One annotated row of the frame built inside `find_unusual`
(src/app.py:195-215), keeping the fields the claims are about. -/
structure AnnRow where
  strike : ℚ
  volume : ℕ
  volOverOI : Option ℚ
  tier : Tier
  relativeVolume : Option ℚ
deriving DecidableEq, Repr

/-- Annotation of one row inside `find_unusual` (src/app.py:198-204):
filled volume, Vol / OI, Activity, relative volume.  The spot-derived
columns (Spot, % From Spot, Moneyness, src/app.py:206-215) are not
consulted by any claim and are omitted. -/
def annotate (t : Thresholds) (chain : List RawRow) (r : RawRow) : AnnRow :=
  { strike := r.strike
    volume := fillVolume r
    volOverOI := volOverOI r
    tier := classify_activity t (volOverOI r)
    relativeVolume := relativeVolume chain r }

/-- src/app.py:217-220, the filter step of `find_unusual`:
`df[(df["volume"] >= MIN_VOLUME) & (df["Activity"] != "Normal")]`. -/
def unusualFilter (minVolume : ℕ) (rows : List AnnRow) : List AnnRow :=
  rows.filter fun a => decide (minVolume ≤ a.volume) && decide (a.tier ≠ Tier.Normal)

/-- src/app.py:195-251 `find_unusual` on one side frame: annotate every
row, then apply the volume/activity filter.  The remaining source lines
only attach constant metadata columns (Ticker / Expiration / Type), format
the strike for display and reorder/rename columns; they add or drop no
row and are omitted. -/
def find_unusual (t : Thresholds) (minVolume : ℕ) (chain : List RawRow) : List AnnRow :=
  unusualFilter minVolume (chain.map (annotate t chain))

/-- src/app.py:275-276 `calls["volume"].fillna(0).sum()` (and the same for
puts): total side volume with missing cells as 0. -/
def sumVol (rows : List RawRow) : ℕ :=
  (rows.map fillVolume).sum

/-- src/app.py:277 `ratio = call_vol / put_vol if put_vol > 0 else None`. -/
def callPutRat (callVol putVol : ℕ) : Option ℚ :=
  if 0 < putVol then some ((callVol : ℚ) / (putVol : ℚ)) else none

/-- src/app.py:280-285: `bias = "Neutral"`, then `> 1.3` → Call-heavy,
`< 0.7` → Put-heavy, `None` leaves Neutral. -/
def flowBias (r : Option ℚ) : String :=
  match r with
  | none => "Neutral"
  | some v => if 13 / 10 < v then "Call-heavy" else if v < 7 / 10 then "Put-heavy" else "Neutral"

/-- One row of `imbalance_rows` (src/app.py:287-294). -/
structure ImbRow where
  ticker : String
  expiration : String
  callVolume : ℕ
  putVolume : ℕ
  callPut : Option ℚ
  bias : String
deriving DecidableEq, Repr

/-- The dict appended at src/app.py:287-294 for one ticker. -/
def imbRowOf (sym expir : String) (calls puts : List RawRow) : ImbRow :=
  let cv := sumVol calls
  let pv := sumVol puts
  let r := callPutRat cv pv
  { ticker := sym
    expiration := expir
    callVolume := cv
    putVolume := pv
    callPut := r
    bias := flowBias r }

/-- Outcome of one external or pandas step inside the per-ticker `try`
block: either a value, or a raised exception. -/
inductive Step (α : Type) where
  | ok (a : α)
  | raised
deriving DecidableEq, Repr

/-- Everything the loop body at src/app.py:259-300 observes for one
ticker.  `spot`, `expirations` and `chain` model the three cached fetch
helpers (src/app.py:155-167), each of which may raise; `selected` is
`expiration_map.get(symbol)` (src/app.py:269).  `callsRaise` / `putsRaise`
model an exception raised inside the corresponding `find_unusual` call
(src/app.py:296-297) by a malformed frame (e.g. a missing column), a
failure mode the typed `RawRow` embedding cannot otherwise express. -/
structure TickerFetch where
  spot : Step (Option ℚ)
  expirations : Step (List String)
  selected : Option String
  chain : Step (List RawRow × List RawRow)
  callsRaise : Bool
  putsRaise : Bool
deriving Repr

/-- The loop body src/app.py:259-300 for one ticker, threading the two
accumulators `contract_results` and `imbalance_rows`.  The `except`
clause at src/app.py:299-300 only warns, so a raise at any point returns
the accumulators exactly as they stood when the exception was thrown;
the `continue`s for missing spot / expirations / selection return them
unchanged. -/
def processTicker (sym : String) (f : TickerFetch) (t : Thresholds) (minVolume : ℕ)
    (cr : List (List AnnRow)) (ir : List ImbRow) :
    List (List AnnRow) × List ImbRow :=
  match f.spot with
  | Step.raised => (cr, ir)
  | Step.ok none => (cr, ir)
  | Step.ok (some _) =>
    match f.expirations with
    | Step.raised => (cr, ir)
    | Step.ok [] => (cr, ir)
    | Step.ok (_ :: _) =>
      match f.selected with
      | none => (cr, ir)
      | some expir =>
        match f.chain with
        | Step.raised => (cr, ir)
        | Step.ok (calls, puts) =>
          let ir' := ir ++ [imbRowOf sym expir calls puts]
          if f.callsRaise then (cr, ir')
          else
            let cr' := cr ++ [find_unusual t minVolume calls]
            if f.putsRaise then (cr', ir')
            else (cr' ++ [find_unusual t minVolume puts], ir')

/-- src/app.py:256-300: the whole watchlist loop, starting from the given
accumulator state. -/
def runWatchlist (t : Thresholds) (minVolume : ℕ) (env : String → TickerFetch)
    (ws : List String) (st : List (List AnnRow) × List ImbRow) :
    List (List AnnRow) × List ImbRow :=
  ws.foldl (fun acc sym => processTicker sym (env sym) t minVolume acc.1 acc.2) st

/-- Relative volume as the specification sentence describes it: the
denominator is the median volume over the FULL calls+puts set of the same
ticker/expiration fetch.  Written from the spec words only, to be
compared against the source-derived `relativeVolume`. -/
def relativeVolumeSpecCombined (calls puts : List RawRow) (r : RawRow) : Option ℚ :=
  match medianVolume ((calls ++ puts).map fillVolume) with
  | none => none
  | some m => if 0 < m then some ((fillVolume r : ℚ) / m) else none

/-- Rank of a tier in the order Normal < Unusual < High < Extreme used by
the monotonicity claim (Unknown never arises for a defined ratio and is
given the bottom rank). -/
def tierRank : Tier → ℕ
  | Tier.Unknown => 0
  | Tier.Normal => 0
  | Tier.Unusual => 1
  | Tier.High => 2
  | Tier.Extreme => 3

/-- Default sidebar thresholds of src/app.py:145-147 (1.0 / 1.5 / 3.0),
used as concrete instantiations. -/
def thEx : Thresholds := ⟨1, 3 / 2, 3⟩

/-- Concrete row: volume 500, open interest 100 (Vol / OI = 5). -/
def rowEx : RawRow := { strike := 10, volume := some 500, openInterest := some 100 }

/-- Concrete row with a missing volume cell. -/
def noVolRow : RawRow := { strike := 10, volume := none, openInterest := some 100 }

/-- Concrete calls-side row used to compare per-side and combined medians. -/
def callRowEx : RawRow := { strike := 10, volume := some 2, openInterest := some 1 }

/-- Concrete puts-side row used to compare per-side and combined medians. -/
def putRowEx : RawRow := { strike := 10, volume := some 4, openInterest := some 1 }

/-- Concrete per-ticker observation in which every fetch succeeds and the
first `find_unusual` call (src/app.py:296) raises. -/
def cexFetch : TickerFetch :=
  { spot := Step.ok (some 10)
    expirations := Step.ok ["2026-01-16"]
    selected := some "2026-01-16"
    chain := Step.ok ([{ strike := 10, volume := some 5, openInterest := some 1 }], [])
    callsRaise := true
    putsRaise := false }

/-- C1: the Activity Classifier follows the exact first-match precedence:
undefined input gives Unknown; otherwise a value at least extremeMin gives
Extreme; otherwise at least highMin gives High; otherwise at least
unusualMin gives Unusual; otherwise Normal.  The Extreme clause needs no
upper bound on the value. -/
theorem classify_activity_precedence (t : Thresholds) (v : ℚ) :
    classify_activity t none = Tier.Unknown ∧
    (t.extremeMin ≤ v → classify_activity t (some v) = Tier.Extreme) ∧
    (¬ t.extremeMin ≤ v → t.highMin ≤ v → classify_activity t (some v) = Tier.High) ∧
    (¬ t.extremeMin ≤ v → ¬ t.highMin ≤ v → t.unusualMin ≤ v →
      classify_activity t (some v) = Tier.Unusual) ∧
    (¬ t.extremeMin ≤ v → ¬ t.highMin ≤ v → ¬ t.unusualMin ≤ v →
      classify_activity t (some v) = Tier.Normal) := by
  refine ⟨rfl, ?_, ?_, ?_, ?_⟩ <;> intros <;> simp [classify_activity, *]

/-- Witness for C1 at the default thresholds 1 / 1.5 / 3 and the values
5, 2, 1, 1/2 and an undefined ratio. -/
theorem classify_activity_precedence_witness :
    classify_activity ⟨1, 3 / 2, 3⟩ (some 5) = Tier.Extreme ∧
    classify_activity ⟨1, 3 / 2, 3⟩ (some 2) = Tier.High ∧
    classify_activity ⟨1, 3 / 2, 3⟩ (some 1) = Tier.Unusual ∧
    classify_activity ⟨1, 3 / 2, 3⟩ (some (1 / 2)) = Tier.Normal ∧
    classify_activity ⟨1, 3 / 2, 3⟩ none = Tier.Unknown :=
  ⟨(classify_activity_precedence ⟨1, 3 / 2, 3⟩ 5).2.1 (by norm_num),
   (classify_activity_precedence ⟨1, 3 / 2, 3⟩ 2).2.2.1 (by norm_num) (by norm_num),
   (classify_activity_precedence ⟨1, 3 / 2, 3⟩ 1).2.2.2.1 (by norm_num) (by norm_num)
     (by norm_num),
   (classify_activity_precedence ⟨1, 3 / 2, 3⟩ (1 / 2)).2.2.2.2 (by norm_num) (by norm_num)
     (by norm_num),
   (classify_activity_precedence ⟨1, 3 / 2, 3⟩ 0).1⟩

/-- C2: for a record processed by `find_unusual`, Vol / OI is defined iff
openInterest is present and positive (a missing cell and an exact 0 both
give an undefined ratio), equals volume / openInterest when defined, and
the assigned tier is Unknown exactly when the ratio is undefined. -/
theorem volOverOI_defined_iff (t : Thresholds) (chain : List RawRow) (r : RawRow) :
    (volOverOI r ≠ none ↔ ∃ n, r.openInterest = some n ∧ 0 < n) ∧
    (∀ n, r.openInterest = some n → 0 < n →
      volOverOI r = some ((fillVolume r : ℚ) / (n : ℚ))) ∧
    ((annotate t chain r).tier = Tier.Unknown ↔ volOverOI r = none) := by
  refine ⟨?_, ?_, ?_⟩
  · cases h : r.openInterest with
    | none => simp [volOverOI, oiClean, h]
    | some n =>
      rcases Nat.eq_zero_or_pos n with h0 | h0
      · subst h0; simp [volOverOI, oiClean, h]
      · simp [volOverOI, oiClean, h, Nat.pos_iff_ne_zero.mp h0]
        omega
  · intro n hn hpos
    simp [volOverOI, oiClean, hn, Nat.pos_iff_ne_zero.mp hpos]
  · cases h : volOverOI r with
    | none => simp [annotate, classify_activity, h]
    | some v =>
      simp only [annotate, classify_activity, h]
      split_ifs <;> simp

/-- Witness for C2 at a row with volume 500 and open interest 100. -/
theorem volOverOI_defined_iff_witness :
    volOverOI rowEx = some ((fillVolume rowEx : ℚ) / (100 : ℚ)) :=
  (volOverOI_defined_iff thEx [rowEx] rowEx).2.1 100 rfl (by norm_num)

/-- C3: `find_unusual` returns exactly the annotated records with volume
at least minVolume and tier different from Normal; Unknown-tier records
passing the volume gate are retained; the empty input yields the empty
(non-error) output. -/
theorem find_unusual_mem_iff (t : Thresholds) (minVolume : ℕ) (h : 1 ≤ minVolume)
    (chain : List RawRow) (a : AnnRow) :
    (a ∈ find_unusual t minVolume chain ↔
      a ∈ chain.map (annotate t chain) ∧ minVolume ≤ a.volume ∧ a.tier ≠ Tier.Normal) ∧
    (a.tier = Tier.Unknown → minVolume ≤ a.volume → a ∈ chain.map (annotate t chain) →
      a ∈ find_unusual t minVolume chain) ∧
    find_unusual t minVolume [] = [] := by
  refine ⟨?_, ?_, rfl⟩
  · simp [find_unusual, unusualFilter, List.mem_filter, and_assoc]
  · intro ht hv hm
    simp [find_unusual, unusualFilter, List.mem_filter, hm, hv, ht]

/-- Witness for C3: the volume-500 / open-interest-100 row passes the
filter at minVolume 100 under the default thresholds. -/
theorem find_unusual_mem_iff_witness :
    annotate thEx [rowEx] rowEx ∈ find_unusual thEx 100 [rowEx] :=
  ((find_unusual_mem_iff thEx 100 (by norm_num) [rowEx] (annotate thEx [rowEx] rowEx)).1).mpr
    ⟨by simp, by norm_num [annotate, fillVolume, rowEx],
     by norm_num [annotate, classify_activity, volOverOI, oiClean, fillVolume, rowEx, thEx]
        decide⟩

/-- C4 counterexample: with every fetch succeeding and the calls-side
`find_unusual` call raising, the imbalance list still receives one entry
for the ticker, so a failing step does not leave both output lists with
zero entries for that ticker. -/
theorem pipeline_partial_contribution_cex :
    cexFetch.callsRaise = true ∧
    (processTicker "XLF" cexFetch ⟨1, 3 / 2, 3⟩ 100 [] []).1 = [] ∧
    (processTicker "XLF" cexFetch ⟨1, 3 / 2, 3⟩ 100 [] []).2.length = 1 :=
  ⟨rfl, rfl, rfl⟩

/-- C4 as amended: every per-ticker failure is caught and the batch
continues; a raise in the spot / expirations / chain fetch (before the
imbalance row is appended) contributes zero entries to both lists; a
raise inside the calls-side `find_unusual` leaves exactly the already
appended imbalance row; a raise inside the puts-side `find_unusual`
leaves the imbalance row and the calls records; and a ticker whose spot
fetch raises is skipped while the rest of the watchlist is processed
unchanged. -/
theorem pipeline_failure_policy (sym : String) (f : TickerFetch) (t : Thresholds)
    (minVolume : ℕ) (cr : List (List AnnRow)) (ir : List ImbRow) :
    ((f.spot = Step.raised ∨ f.expirations = Step.raised ∨ f.chain = Step.raised) →
      processTicker sym f t minVolume cr ir = (cr, ir)) ∧
    (∀ s es expir calls puts, f.spot = Step.ok (some s) → f.expirations = Step.ok es →
      es ≠ [] → f.selected = some expir → f.chain = Step.ok (calls, puts) →
      f.callsRaise = true →
      processTicker sym f t minVolume cr ir = (cr, ir ++ [imbRowOf sym expir calls puts])) ∧
    (∀ s es expir calls puts, f.spot = Step.ok (some s) → f.expirations = Step.ok es →
      es ≠ [] → f.selected = some expir → f.chain = Step.ok (calls, puts) →
      f.callsRaise = false → f.putsRaise = true →
      processTicker sym f t minVolume cr ir =
        (cr ++ [find_unusual t minVolume calls], ir ++ [imbRowOf sym expir calls puts])) ∧
    (∀ env rest st', f.spot = Step.raised → env sym = f →
      runWatchlist t minVolume env (sym :: rest) st' = runWatchlist t minVolume env rest st') := by
  obtain ⟨sp, ex, sel, ch, cR, pR⟩ := f
  refine ⟨?_, ?_, ?_, ?_⟩
  · rintro (h | h | h) <;> simp only at h <;> subst h <;>
      simp only [processTicker] <;> (repeat' split) <;> simp_all
  · intro s es expir calls puts hs he hes hsel hch hcR
    simp only at hs he hsel hch hcR
    subst hs; subst he; subst hsel; subst hch; subst hcR
    cases es with
    | nil => exact absurd rfl hes
    | cons e es2 => simp [processTicker]
  · intro s es expir calls puts hs he hes hsel hch hcR hpR
    simp only at hs he hsel hch hcR hpR
    subst hs; subst he; subst hsel; subst hch; subst hcR; subst hpR
    cases es with
    | nil => exact absurd rfl hes
    | cons e es2 => simp [processTicker]
  · intro env rest st' hsp henv
    simp only at hsp
    subst hsp
    simp [runWatchlist, henv, processTicker]

/-- Witness for the amended C4: a fetch that raises on the spot lookup
contributes nothing to either accumulator. -/
theorem pipeline_failure_policy_witness :
    processTicker "XLF"
      { spot := Step.raised
        expirations := Step.ok []
        selected := none
        chain := Step.raised
        callsRaise := false
        putsRaise := false } thEx 100 [] [] = ([], []) :=
  (pipeline_failure_policy "XLF"
      { spot := Step.raised
        expirations := Step.ok []
        selected := none
        chain := Step.raised
        callsRaise := false
        putsRaise := false } thEx 100 [] []).1 (Or.inl rfl)

/-- C6 counterexample: for a one-row calls chain with volume 2 and a
one-row puts chain with volume 4, the code computes the calls-side
relative volume from the calls-only median (giving 1), not from the
median of the combined calls+puts set (which would give 2/3). -/
theorem relativeVolume_not_combined_cex :
    relativeVolume [callRowEx] callRowEx ≠
      relativeVolumeSpecCombined [callRowEx] [putRowEx] callRowEx := by
  simp [relativeVolume, relativeVolumeSpecCombined, medianVolume, sortVols, insertSorted,
    fillVolume, callRowEx, putRowEx]
  norm_num

/-- C6 as amended: the relative-volume denominator is the median volume of
the SAME SIDE chain the record came from (calls and puts are passed to
`find_unusual` separately at src/app.py:296-297), taken before filtering
and after missing volumes are coerced to 0; the value is defined iff that
median is defined and positive, equals volume / median when defined, and
is undefined for the whole chain when the median is undefined or zero. -/
theorem relativeVolume_per_side (t : Thresholds) (chain : List RawRow) (r : RawRow) :
    ((annotate t chain r).relativeVolume ≠ none ↔
      ∃ m, medianVolume (chain.map fillVolume) = some m ∧ 0 < m) ∧
    (∀ m, medianVolume (chain.map fillVolume) = some m → 0 < m →
      (annotate t chain r).relativeVolume = some ((fillVolume r : ℚ) / m)) ∧
    (medianVolume (chain.map fillVolume) = none →
      (annotate t chain r).relativeVolume = none) ∧
    (medianVolume (chain.map fillVolume) = some 0 →
      (annotate t chain r).relativeVolume = none) := by
  refine ⟨?_, ?_, ?_, ?_⟩
  · cases h : medianVolume (chain.map fillVolume) with
    | none => simp [annotate, relativeVolume, h]
    | some m => by_cases hm : 0 < m <;> simp [annotate, relativeVolume, h, hm]
  · intro m hmed hpos
    simp [annotate, relativeVolume, hmed, hpos]
  · intro hmed
    simp [annotate, relativeVolume, hmed]
  · intro hmed
    simp [annotate, relativeVolume, hmed]

/-- Witness for the amended C6 at the one-row chain of volume 500. -/
theorem relativeVolume_per_side_witness :
    (annotate thEx [rowEx] rowEx).relativeVolume = some ((fillVolume rowEx : ℚ) / 500) :=
  (relativeVolume_per_side thEx [rowEx] rowEx).2.1 500
    (by norm_num [medianVolume, sortVols, insertSorted, fillVolume, rowEx]) (by norm_num)

/-- C7: the call/put ratio is defined (as callVolume / putVolume) exactly
when putVolume is positive; the bias is Call-heavy iff the ratio exceeds
13/10, Put-heavy iff it is below 7/10, and Neutral otherwise; the
boundary values 13/10 and 7/10 and an undefined ratio all give Neutral. -/
theorem imbalance_bias_boundaries (cv pv : ℕ) (v : ℚ) :
    (0 < pv → callPutRat cv pv = some ((cv : ℚ) / (pv : ℚ))) ∧
    (pv = 0 → callPutRat cv pv = none) ∧
    (flowBias (some v) = "Call-heavy" ↔ 13 / 10 < v) ∧
    (flowBias (some v) = "Put-heavy" ↔ v < 7 / 10) ∧
    (flowBias (some v) = "Neutral" ↔ (7 / 10 ≤ v ∧ v ≤ 13 / 10)) ∧
    flowBias (some (13 / 10)) = "Neutral" ∧
    flowBias (some (7 / 10)) = "Neutral" ∧
    flowBias none = "Neutral" := by
  refine ⟨?_, ?_, ?_, ?_, ?_, ?_, ?_, rfl⟩
  · intro h; simp [callPutRat, h]
  · intro h; simp [callPutRat, h]
  · simp only [flowBias]
    split_ifs with h1 h2 <;> simp_all <;> linarith
  · simp only [flowBias]
    split_ifs with h1 h2 <;> simp_all <;> linarith
  · simp only [flowBias]
    split_ifs with h1 h2
    · constructor
      · intro hEq; cases (by decide : ("Call-heavy" : String) ≠ "Neutral") hEq
      · intro hc; exfalso; linarith [hc.2]
    · constructor
      · intro hEq; cases (by decide : ("Put-heavy" : String) ≠ "Neutral") hEq
      · intro hc; exfalso; linarith [hc.1]
    · constructor
      · intro _; exact ⟨by linarith, by linarith⟩
      · intro _; rfl
  · norm_num [flowBias]
  · norm_num [flowBias]

/-- Witness for C7 at call volume 13, put volume 10. -/
theorem imbalance_bias_boundaries_witness :
    callPutRat 13 10 = some ((13 : ℚ) / (10 : ℚ)) ∧
    flowBias (some (13 / 10)) = "Neutral" :=
  ⟨(imbalance_bias_boundaries 13 10 1).1 (by norm_num),
   (imbalance_bias_boundaries 13 10 1).2.2.2.2.2.1⟩

/-- C8: with thresholds ordered unusualMin ≤ highMin ≤ extremeMin, the
tier assigned to a larger defined Vol / OI value never has a smaller rank
in the order Normal < Unusual < High < Extreme. -/
theorem classify_activity_monotone (t : Thresholds)
    (h1 : t.unusualMin ≤ t.highMin) (h2 : t.highMin ≤ t.extremeMin)
    (a b : ℚ) (hab : a ≤ b) :
    tierRank (classify_activity t (some a)) ≤ tierRank (classify_activity t (some b)) := by
  simp only [classify_activity]
  split_ifs <;> simp only [tierRank] <;> first | omega | linarith

/-- Witness for C8 at the default thresholds and the pair 1 ≤ 2. -/
theorem classify_activity_monotone_witness :
    tierRank (classify_activity thEx (some 1)) ≤ tierRank (classify_activity thEx (some 2)) :=
  classify_activity_monotone thEx (by norm_num [thEx]) (by norm_num [thEx]) 1 2 (by norm_num)

/-- C9: the Unusual-Activity Filter is idempotent — filtering its own
output (in particular the output of `find_unusual`) changes nothing. -/
theorem unusualFilter_idempotent (t : Thresholds) (minVolume : ℕ)
    (rows : List AnnRow) (chain : List RawRow) :
    unusualFilter minVolume (unusualFilter minVolume rows) = unusualFilter minVolume rows ∧
    unusualFilter minVolume (find_unusual t minVolume chain) = find_unusual t minVolume chain := by
  have key : ∀ l : List AnnRow,
      unusualFilter minVolume (unusualFilter minVolume l) = unusualFilter minVolume l := by
    intro l
    apply List.filter_eq_self.mpr
    intro a ha
    exact (List.mem_filter.mp ha).2
  exact ⟨key rows, key (chain.map (annotate t chain))⟩

/-- C10: a row whose volume cell is missing is coerced to volume 0 and,
because minVolume is at least 1, can never appear in the output of
`find_unusual`. -/
theorem missing_volume_excluded (t : Thresholds) (minVolume : ℕ) (h : 1 ≤ minVolume)
    (chain : List RawRow) (r : RawRow) (hr : r.volume = none) :
    annotate t chain r ∉ find_unusual t minVolume chain := by
  intro hmem
  have hv : (annotate t chain r).volume = 0 := by simp [annotate, fillVolume, hr]
  have h2 := (List.mem_filter.mp hmem).2
  rw [hv] at h2
  simp at h2
  omega

/-- Witness for C10: the missing-volume row is excluded at minVolume 100. -/
theorem missing_volume_excluded_witness :
    annotate thEx [noVolRow] noVolRow ∉ find_unusual thEx 100 [noVolRow] :=
  missing_volume_excluded thEx 100 (by norm_num) [noVolRow] noVolRow rfl

end OptionsDashboard
